import Mathlib

/-!
Shallow embedding of the arbitrage-detection engine of the
SportsArbitrage-Bot repository (src/bot/fetch.py).

Odds prices are embedded as rationals (the Python code computes with
floating-point decimals on values such as 2.10; all claims use small
decimal literals, where rational arithmetic agrees with the source's
semantics of strict comparison against 1.0).  Python's
`ZeroDivisionError` on `1.0 / 0.0` is embedded by letting the evaluator
return `Except Unit _`: `Except.error ()` is the propagating fault.
-/

/-- One bookmaker's two-way quote for one event, as parsed by
`Fetch.fetch_odds` (keys sport, home_team, away_team, bookmaker,
home_odds, away_odds). -/
structure OddsRecord where
  sport : String
  home_team : String
  away_team : String
  bookmaker : String
  home_odds : ℚ
  away_odds : ℚ
deriving DecidableEq

instance : Inhabited OddsRecord :=
  ⟨{ sport := "", home_team := "", away_team := "", bookmaker := "",
     home_odds := 0, away_odds := 0 }⟩

/-- The output entity built at fetch.py lines 49-58. -/
structure ArbitrageOpportunity where
  sport : String
  home_team : String
  away_team : String
  home_bookmaker : String
  away_bookmaker : String
  home_odds : ℚ
  away_odds : ℚ
  profit_percent : ℚ
deriving DecidableEq

/-- The grouping identity used at fetch.py line 31:
the triple (sport, home_team, away_team). -/
abbrev EventKey := String × String × String

/-- Key extraction, fetch.py line 31: `(odd["sport"], odd["home_team"], odd["away_team"])`. -/
def eventKey (r : OddsRecord) : EventKey :=
  (r.sport, r.home_team, r.away_team)

/-- One step of the grouping loop, fetch.py lines 30-34: if the key is
already present append the record to its group, else start a new group
at the end (Python dicts preserve key insertion order). -/
def insertRecord (acc : List (EventKey × List OddsRecord)) (r : OddsRecord) :
    List (EventKey × List OddsRecord) :=
  if acc.any (fun kg => decide (kg.1 = eventKey r)) then
    acc.map (fun kg => if kg.1 = eventKey r then (kg.1, kg.2 ++ [r]) else kg)
  else
    acc ++ [(eventKey r, [r])]

/-- The grouping loop of fetch.py lines 29-34: builds `event_odds`. -/
def groupByEvent (rs : List OddsRecord) : List (EventKey × List OddsRecord) :=
  rs.foldl insertRecord []

/-- The body of the inner pair loop, fetch.py lines 43-59: take odd1's
home price and odd2's away price, fault on a zero divisor
(Python `ZeroDivisionError`), and emit an opportunity exactly when
`arb_sum < 1.0` (strict). -/
def evalPair (sport home away : String) (odd1 odd2 : OddsRecord) :
    Except Unit (Option ArbitrageOpportunity) :=
  if odd1.home_odds = 0 ∨ odd2.away_odds = 0 then
    Except.error ()
  else
    let arb_sum : ℚ := 1 / odd1.home_odds + 1 / odd2.away_odds
    if arb_sum < 1 then
      Except.ok (some
        { sport := sport
          home_team := home
          away_team := away
          home_bookmaker := odd1.bookmaker
          away_bookmaker := odd2.bookmaker
          home_odds := odd1.home_odds
          away_odds := odd2.away_odds
          profit_percent := (1 / arb_sum - 1) * 100 })
    else
      Except.ok none

/-- The inner loop `for odd2 in odds_group[i + 1:]` of fetch.py line 40,
for a fixed odd1, collecting the opportunities appended in order. -/
def evalAgainst (sport home away : String) (odd1 : OddsRecord) :
    List OddsRecord → Except Unit (List ArbitrageOpportunity)
  | [] => Except.ok []
  | odd2 :: rest => do
      let o ← evalPair sport home away odd1 odd2
      let os ← evalAgainst sport home away odd1 rest
      pure (o.toList ++ os)

/-- The nested pair loops of fetch.py lines 39-59 over one event group:
`for i, odd1 in enumerate(odds_group): for odd2 in odds_group[i + 1:]`. -/
def evalGroup (sport home away : String) :
    List OddsRecord → Except Unit (List ArbitrageOpportunity)
  | [] => Except.ok []
  | odd1 :: rest => do
      let os1 ← evalAgainst sport home away odd1 rest
      let os2 ← evalGroup sport home away rest
      pure (os1 ++ os2)

/-- The internal `arbitrage_opportunities` list of fetch.py lines 36-59:
group the input by event, then run the pair loops over every group,
concatenating in group-iteration order. -/
def compute_arbitrage_all (odds_list : List OddsRecord) :
    Except Unit (List ArbitrageOpportunity) :=
  (groupByEvent odds_list).foldlM
    (fun acc kg => do
      let os ← evalGroup kg.1.1 kg.1.2.1 kg.1.2.2 kg.2
      pure (acc ++ os))
    []

/-- The function `ArbitrageCalculator.compute_arbitrage`, fetch.py lines 19-65: empty
input returns None (line 25); otherwise the first accumulated
opportunity is returned if any (lines 61-65), else None. -/
def compute_arbitrage (odds_list : List OddsRecord) :
    Except Unit (Option ArbitrageOpportunity) :=
  if odds_list.isEmpty then
    Except.ok none
  else do
    let opps ← compute_arbitrage_all odds_list
    pure opps.head?

/-- The record slice considered by `Fetch.run`, fetch.py line 170:
`self.odds_data[:1000]`. -/
def run_considered (odds_data : List OddsRecord) : List OddsRecord :=
  odds_data.take 1000

/-- The arbitrage loop of `Fetch.run`, fetch.py lines 168-173: for each
of the first 1000 records, call `compute_arbitrage` on the singleton
list `[odd]` and append the result when truthy. -/
def runOpportunities (odds_data : List OddsRecord) :
    Except Unit (List ArbitrageOpportunity) :=
  (run_considered odds_data).foldlM
    (fun acc odd => do
      let arb ← compute_arbitrage [odd]
      pure (match arb with
            | some a => acc ++ [a]
            | none => acc))
    []

/-- Whether `Fetch.run` writes arbitrage_opportunities.csv, fetch.py
lines 175-180: only when the collected list is non-empty (and no
exception escaped the loop). -/
def run_writes_csv (odds_data : List OddsRecord) : Bool :=
  match runOpportunities odds_data with
  | Except.ok opps => !opps.isEmpty
  | Except.error _ => false

/-- Spec-side definition (§4.2 step 1): the candidate pair list, every
(i, j) with i < j in the group's order, in pair-enumeration order. -/
def orderedPairs {α : Type} : List α → List (α × α)
  | [] => []
  | x :: xs => (xs.map fun y => (x, y)) ++ orderedPairs xs

/-- Spec-side evaluation of an explicit candidate list, one `evalPair`
per candidate, in order. -/
def evalCandidates (sport home away : String) :
    List (OddsRecord × OddsRecord) → Except Unit (List ArbitrageOpportunity)
  | [] => Except.ok []
  | p :: ps => do
      let o ← evalPair sport home away p.1 p.2
      let os ← evalCandidates sport home away ps
      pure (o.toList ++ os)

/-- Concrete record of the spec's scenario A, bookmaker A. -/
def recA : OddsRecord :=
  { sport := "nba", home_team := "Lakers", away_team := "Celtics",
    bookmaker := "A", home_odds := 21 / 10, away_odds := 2 }

/-- Concrete record of the spec's scenario A, bookmaker B. -/
def recB : OddsRecord :=
  { sport := "nba", home_team := "Lakers", away_team := "Celtics",
    bookmaker := "B", home_odds := 2, away_odds := 5 / 2 }

/-- The opportunity produced on scenario A: A's home leg 2.10 with B's
away leg 2.50, profit exactly 325/23 percent. -/
def oppAB : ArbitrageOpportunity :=
  { sport := "nba", home_team := "Lakers", away_team := "Celtics",
    home_bookmaker := "A", away_bookmaker := "B",
    home_odds := 21 / 10, away_odds := 5 / 2, profit_percent := 325 / 23 }

/-- A record with a zero home price (an invalid record per §3). -/
def recBad : OddsRecord :=
  { sport := "nba", home_team := "Lakers", away_team := "Celtics",
    bookmaker := "X", home_odds := 0, away_odds := 2 }

/-- Three same-event records, all prices 3, used to exhibit several
qualifying pairs in one group. -/
def s1 : OddsRecord :=
  { sport := "nba", home_team := "Lakers", away_team := "Celtics",
    bookmaker := "A", home_odds := 3, away_odds := 3 }

/-- Second of the three same-event records. -/
def s2 : OddsRecord :=
  { sport := "nba", home_team := "Lakers", away_team := "Celtics",
    bookmaker := "B", home_odds := 3, away_odds := 3 }

/-- Third of the three same-event records. -/
def s3 : OddsRecord :=
  { sport := "nba", home_team := "Lakers", away_team := "Celtics",
    bookmaker := "C", home_odds := 3, away_odds := 3 }

/-- Opportunity from the pair (s1, s2): arb_sum 2/3, profit 50 percent. -/
def opp12 : ArbitrageOpportunity :=
  { sport := "nba", home_team := "Lakers", away_team := "Celtics",
    home_bookmaker := "A", away_bookmaker := "B",
    home_odds := 3, away_odds := 3, profit_percent := 50 }

/-- Opportunity from the pair (s1, s3). -/
def opp13 : ArbitrageOpportunity :=
  { sport := "nba", home_team := "Lakers", away_team := "Celtics",
    home_bookmaker := "A", away_bookmaker := "C",
    home_odds := 3, away_odds := 3, profit_percent := 50 }

/-- Opportunity from the pair (s2, s3). -/
def opp23 : ArbitrageOpportunity :=
  { sport := "nba", home_team := "Lakers", away_team := "Celtics",
    home_bookmaker := "B", away_bookmaker := "C",
    home_odds := 3, away_odds := 3, profit_percent := 50 }

/-- Scenario B record: both prices 1.50, bookmaker D. -/
def recD : OddsRecord :=
  { sport := "nba", home_team := "Lakers", away_team := "Celtics",
    bookmaker := "D", home_odds := 3 / 2, away_odds := 3 / 2 }

/-- Scenario B record: both prices 1.50, bookmaker E. -/
def recE : OddsRecord :=
  { sport := "nba", home_team := "Lakers", away_team := "Celtics",
    bookmaker := "E", home_odds := 3 / 2, away_odds := 3 / 2 }

lemma compute_arbitrage_singleton (r : OddsRecord) :
    compute_arbitrage [r] = Except.ok none := rfl

lemma runOpportunities_aux (l : List OddsRecord)
    (acc : List ArbitrageOpportunity) :
    (l.foldlM
      (fun acc odd => do
        let arb ← compute_arbitrage [odd]
        pure (match arb with
              | some a => acc ++ [a]
              | none => acc))
      acc : Except Unit (List ArbitrageOpportunity)) = Except.ok acc := by
  induction l generalizing acc with
  | nil => rfl
  | cons o l ih =>
      simp only [List.foldlM_cons, compute_arbitrage_singleton]
      exact ih acc

lemma runOpportunities_eq_nil (odds_data : List OddsRecord) :
    runOpportunities odds_data = Except.ok [] :=
  runOpportunities_aux (run_considered odds_data) []


/-- C2: for every list of fetched records, `Fetch.run` invokes
`compute_arbitrage` only on singleton lists, so it collects zero
opportunities on every input and never writes the output CSV. -/
theorem C2_run_yields_nothing (odds_data : List OddsRecord) :
    runOpportunities odds_data = Except.ok [] ∧
    run_writes_csv odds_data = false := by
  refine ⟨runOpportunities_eq_nil odds_data, ?_⟩
  show (match runOpportunities odds_data with
        | Except.ok opps => !opps.isEmpty
        | Except.error _ => false) = false
  rw [runOpportunities_eq_nil odds_data]
  rfl

/-- C9: empty input yields no opportunities and no fault, and so does a
single-record input (no pairing partner), both for the evaluator and
for the top-level run loop. -/
theorem C9_empty_and_singleton :
    compute_arbitrage [] = Except.ok none ∧
    runOpportunities [] = Except.ok [] ∧
    (∀ r : OddsRecord, compute_arbitrage [r] = Except.ok none) ∧
    (∀ r : OddsRecord, runOpportunities [r] = Except.ok []) :=
  ⟨rfl, runOpportunities_eq_nil [],
   compute_arbitrage_singleton,
   fun r => runOpportunities_eq_nil [r]⟩

/-- C10: with 1500 records, the run's slice keeps exactly the first
1000 records of the input in order (it truncates the input record set,
not the output), the rest being dropped; the collected result equals
the result over the truncated input. -/
theorem C10_limit_truncates_input (rs : List OddsRecord)
    (h : rs.length = 1500) :
    run_considered rs = rs.take 1000 ∧
    (run_considered rs).length = 1000 ∧
    run_considered rs ++ rs.drop 1000 = rs ∧
    runOpportunities rs = runOpportunities (run_considered rs) := by
  refine ⟨rfl, ?_, List.take_append_drop 1000 rs, ?_⟩
  · show (rs.take 1000).length = 1000
    rw [List.length_take, h]
    omega
  · rw [runOpportunities_eq_nil rs, runOpportunities_eq_nil (run_considered rs)]

/-- Witness for C10 at a concrete 1500-record input. -/
theorem C10_limit_truncates_input_witness :
    (List.replicate 1500 recA).length = 1500 ∧
    (run_considered (List.replicate 1500 recA) =
        (List.replicate 1500 recA).take 1000 ∧
      (run_considered (List.replicate 1500 recA)).length = 1000 ∧
      run_considered (List.replicate 1500 recA) ++
          (List.replicate 1500 recA).drop 1000 =
        List.replicate 1500 recA ∧
      runOpportunities (List.replicate 1500 recA) =
        runOpportunities (run_considered (List.replicate 1500 recA))) :=
  ⟨List.length_replicate 1500 recA,
   C10_limit_truncates_input (List.replicate 1500 recA)
     (List.length_replicate 1500 recA)⟩

/-- C5: on the spec's scenario A records, the evaluator (the grouping
plus pair loops of `compute_arbitrage`, which is what the top level
runs per list of records) returns the opportunity built from A's home
leg 2.10 and B's away leg 2.50, whose arb_sum is below 1 and whose
profit percentage is within 0.01 of 14.13. -/
theorem C5_scenarioA :
    compute_arbitrage [recA, recB] = Except.ok (some oppAB) ∧
    oppAB.home_odds = recA.home_odds ∧
    oppAB.away_odds = recB.away_odds ∧
    oppAB.home_bookmaker = recA.bookmaker ∧
    oppAB.away_bookmaker = recB.bookmaker ∧
    1 / recA.home_odds + 1 / recB.away_odds < 1 ∧
    |oppAB.profit_percent - 1413 / 100| < 1 / 100 := by
  refine ⟨by with_unfolding_all rfl, rfl, rfl, rfl, rfl, ?_, ?_⟩
  · show (1 : ℚ) / (21 / 10) + 1 / (5 / 2) < 1
    norm_num
  · show |(325 : ℚ) / 23 - 1413 / 100| < 1 / 100
    rw [abs_lt]
    constructor <;> norm_num

lemma groupByEvent_pair (r1 r2 : OddsRecord)
    (hk : eventKey r2 = eventKey r1) :
    groupByEvent [r1, r2] = [(eventKey r1, [r1, r2])] := by
  simp [groupByEvent, insertRecord, hk]

lemma evalPair_zero_leg (s h a : String) (r1 r2 : OddsRecord)
    (h0 : r1.home_odds = 0 ∨ r2.away_odds = 0) :
    evalPair s h a r1 r2 = Except.error () := by
  simp only [evalPair]
  rw [if_pos h0]

lemma compute_arbitrage_pair_zero_leg (r1 r2 : OddsRecord)
    (hk : eventKey r2 = eventKey r1)
    (h0 : r1.home_odds = 0 ∨ r2.away_odds = 0) :
    compute_arbitrage [r1, r2] = Except.error () := by
  have hg := groupByEvent_pair r1 r2 hk
  have hp := evalPair_zero_leg r1.sport r1.home_team r1.away_team r1 r2 h0
  simp only [compute_arbitrage, compute_arbitrage_all, hg, List.isEmpty_cons,
    List.foldlM_cons, List.foldlM_nil, evalGroup, evalAgainst, eventKey] at *
  simp only [hp]
  rfl

/-- C1 counterexample: on a group with three qualifying pairs the
internal list holds three distinct opportunities, yet
`compute_arbitrage` returns only the first one, not the full list. -/
theorem C1_counterexample :
    compute_arbitrage_all [s1, s2, s3] =
      Except.ok [opp12, opp13, opp23] ∧
    compute_arbitrage [s1, s2, s3] = Except.ok (some opp12) ∧
    opp13 ≠ opp12 := by
  refine ⟨by with_unfolding_all rfl, by with_unfolding_all rfl, ?_⟩
  intro hcontra
  have : opp13.away_bookmaker = opp12.away_bookmaker := by rw [hcontra]
  simp [opp13, opp12] at this

/-- C1 amended: the evaluator accumulates one opportunity per
qualifying pair into an internal ordered list, but returns only the
first element of that list (or none when it is empty), never the full
list. -/
theorem C1_first_only (l : List OddsRecord) :
    compute_arbitrage l = Except.map List.head? (compute_arbitrage_all l) := by
  cases l with
  | nil => rfl
  | cons r rs =>
      cases hall : compute_arbitrage_all (r :: rs) with
      | error e =>
          simp only [compute_arbitrage, List.isEmpty_cons, hall]
          rfl
      | ok v =>
          simp only [compute_arbitrage, List.isEmpty_cons, hall]
          rfl

/-- C3 counterexample: a record with zero home price is not removed:
the run's slice keeps it and the grouper places it in a group, so an
invalid record does reach the grouper. -/
theorem C3_counterexample :
    recBad.home_odds ≤ 0 ∧
    run_considered [recBad] = [recBad] ∧
    groupByEvent (run_considered [recBad]) =
      [(eventKey recBad, [recBad])] :=
  ⟨le_of_eq rfl, rfl, rfl⟩

/-- C3 amended: the top-level scan applies no validity filter at all:
it keeps exactly the first 1000 records of the input regardless of
their prices, and every kept record, valid or not, is placed by the
grouper into a group. -/
theorem C3_no_filtering (rs : List OddsRecord) :
    run_considered rs = rs.take 1000 ∧
    ∀ r ∈ run_considered rs, ∃ kg ∈ groupByEvent [r], r ∈ kg.2 := by
  refine ⟨rfl, ?_⟩
  intro r _
  refine ⟨(eventKey r, [r]), ?_, ?_⟩
  · show (eventKey r, [r]) ∈ [(eventKey r, [r])]
    exact List.mem_singleton.mpr rfl
  · exact List.mem_singleton.mpr rfl

/-- Witness for C3 amended at the concrete invalid record. -/
theorem C3_no_filtering_witness :
    run_considered [recBad] = [recBad].take 1000 ∧
    ∀ r ∈ run_considered [recBad], ∃ kg ∈ groupByEvent [r], r ∈ kg.2 :=
  C3_no_filtering [recBad]

/-- C4 counterexample: pairing the zero-home-odds record with a
same-event record makes the evaluator propagate a division-by-zero
fault instead of treating the pair as no opportunity. -/
theorem C4_counterexample :
    recBad.home_odds = 0 ∧
    eventKey recB = eventKey recBad ∧
    compute_arbitrage [recBad, recB] = Except.error () :=
  ⟨rfl, rfl, compute_arbitrage_pair_zero_leg recBad recB rfl (Or.inl rfl)⟩

/-- C4 amended: when a pair whose home leg price or away leg price is
zero is actually evaluated, the evaluator propagates a division-by-zero
fault instead of skipping the pair; a single zero-odds record alone,
however, is never paired, so both the evaluator and the run loop return
empty without fault on it. -/
theorem C4_zero_divides_faults (r1 r2 : OddsRecord)
    (hk : eventKey r2 = eventKey r1)
    (h0 : r1.home_odds = 0 ∨ r2.away_odds = 0) :
    compute_arbitrage [r1, r2] = Except.error () ∧
    compute_arbitrage [r1] = Except.ok none ∧
    runOpportunities [r1] = Except.ok [] :=
  ⟨compute_arbitrage_pair_zero_leg r1 r2 hk h0,
   compute_arbitrage_singleton r1,
   runOpportunities_eq_nil [r1]⟩

/-- Witness for C4 amended: the concrete zero-home-odds record paired
with a same-event record faults, while alone it returns empty. -/
theorem C4_zero_divides_faults_witness :
    eventKey recB = eventKey recBad ∧
    (recBad.home_odds = 0 ∨ recB.away_odds = 0) ∧
    (compute_arbitrage [recBad, recB] = Except.error () ∧
      compute_arbitrage [recBad] = Except.ok none ∧
      runOpportunities [recBad] = Except.ok []) :=
  ⟨rfl, Or.inl rfl, C4_zero_divides_faults recBad recB rfl (Or.inl rfl)⟩

@[simp] lemma except_pure_def {ε α : Type} (a : α) :
    (pure a : Except ε α) = Except.ok a := rfl

@[simp] lemma except_ok_bind {ε α β : Type} (a : α) (f : α → Except ε β) :
    (Except.ok a >>= f : Except ε β) = f a := rfl

@[simp] lemma except_error_bind {ε α β : Type} (e : ε) (f : α → Except ε β) :
    ((Except.error e : Except ε α) >>= f : Except ε β) = Except.error e := rfl

lemma evalAgainst_eq_candidates (s h a : String) (x : OddsRecord)
    (ys : List OddsRecord) :
    evalAgainst s h a x ys = evalCandidates s h a (ys.map fun y => (x, y)) := by
  induction ys with
  | nil => rfl
  | cons y ys ih =>
      simp only [evalAgainst, List.map_cons, evalCandidates, ih]

lemma evalCandidates_append (s h a : String)
    (l1 l2 : List (OddsRecord × OddsRecord)) :
    evalCandidates s h a (l1 ++ l2) =
      evalCandidates s h a l1 >>= fun os1 =>
        evalCandidates s h a l2 >>= fun os2 => pure (os1 ++ os2) := by
  induction l1 with
  | nil =>
      simp only [List.nil_append, evalCandidates, except_ok_bind]
      cases hl : evalCandidates s h a l2 <;> simp
  | cons p ps ih =>
      simp only [List.cons_append, evalCandidates]
      cases hp : evalPair s h a p.1 p.2 <;>
        cases hps : evalCandidates s h a ps <;>
          cases hl2 : evalCandidates s h a l2 <;>
            simp [ih, hps, hl2, List.append_assoc]

lemma evalGroup_eq_candidates (s h a : String) (g : List OddsRecord) :
    evalGroup s h a g = evalCandidates s h a (orderedPairs g) := by
  induction g with
  | nil => rfl
  | cons x xs ih =>
      simp only [evalGroup, orderedPairs, evalCandidates_append,
        evalAgainst_eq_candidates, ih]

lemma orderedPairs_mem_index {α : Type} (g : List α) (p : α × α)
    (hp : p ∈ orderedPairs g) :
    ∃ i j : ℕ, ∃ (hi : i < g.length) (hj : j < g.length),
      i < j ∧ p.1 = g.get ⟨i, hi⟩ ∧ p.2 = g.get ⟨j, hj⟩ := by
  induction g with
  | nil => simp [orderedPairs] at hp
  | cons x xs ih =>
      simp only [orderedPairs, List.mem_append, List.mem_map] at hp
      rcases hp with ⟨y, hy, rfl⟩ | hp
      · obtain ⟨k, hk, hky⟩ := List.mem_iff_getElem.mp hy
        refine ⟨0, k + 1, Nat.succ_pos xs.length, Nat.succ_lt_succ hk,
          Nat.succ_pos k, rfl, ?_⟩
        simp [← hky]
      · obtain ⟨i, j, hi, hj, hij, h1, h2⟩ := ih hp
        exact ⟨i + 1, j + 1, Nat.succ_lt_succ hi, Nat.succ_lt_succ hj,
          Nat.succ_lt_succ hij, by simpa using h1, by simpa using h2⟩

lemma orderedPairs_complete {α : Type} (g : List α) (i j : ℕ)
    (hi : i < g.length) (hj : j < g.length) (hij : i < j) :
    (g.get ⟨i, hi⟩, g.get ⟨j, hj⟩) ∈ orderedPairs g := by
  induction g generalizing i j with
  | nil => simp at hi
  | cons x xs ih =>
      cases j with
      | zero => omega
      | succ k =>
          cases i with
          | zero =>
              simp only [orderedPairs, List.mem_append]
              left
              refine List.mem_map.mpr ⟨xs.get ⟨k, Nat.lt_of_succ_lt_succ hj⟩,
                List.get_mem xs k (Nat.lt_of_succ_lt_succ hj), ?_⟩
              simp
          | succ m =>
              simp only [orderedPairs, List.mem_append]
              right
              have := ih m k (Nat.lt_of_succ_lt_succ hi)
                (Nat.lt_of_succ_lt_succ hj) (Nat.lt_of_succ_lt_succ hij)
              simpa using this

lemma orderedPairs_length {α : Type} (g : List α) :
    (orderedPairs g).length = g.length.choose 2 := by
  induction g with
  | nil => rfl
  | cons x xs ih =>
      simp only [orderedPairs, List.length_append, List.length_map,
        List.length_cons, ih, Nat.choose_succ_succ, Nat.choose_one_right]

lemma evalPair_ok_fields (s h a : String) (o1 o2 : OddsRecord)
    (opp : ArbitrageOpportunity)
    (hopp : evalPair s h a o1 o2 = Except.ok (some opp)) :
    opp.home_odds = o1.home_odds ∧ opp.away_odds = o2.away_odds ∧
    opp.home_bookmaker = o1.bookmaker ∧ opp.away_bookmaker = o2.bookmaker := by
  by_cases hz : o1.home_odds = 0 ∨ o2.away_odds = 0
  · simp [evalPair, hz] at hopp
  · by_cases hlt : 1 / o1.home_odds + 1 / o2.away_odds < 1
    · simp only [evalPair, if_neg hz, if_pos hlt, Except.ok.injEq,
        Option.some.injEq] at hopp
      subst hopp
      exact ⟨rfl, rfl, rfl, rfl⟩
    · simp only [evalPair, if_neg hz, if_neg hlt] at hopp
      simp at hopp

/-- C6: the nested pair loops evaluate exactly the candidate list of
ordered pairs (i, j) with i < j, one candidate per index pair
(the candidate list has exactly (n choose 2) entries), always taking
the earlier record's home leg and the later record's away leg (the
fields of any produced opportunity come from them in that orientation);
the reverse assignment and self-pairing are never evaluated. -/
theorem C6_asymmetric_pairing (s h a : String) (g : List OddsRecord) :
    evalGroup s h a g = evalCandidates s h a (orderedPairs g) ∧
    (∀ p ∈ orderedPairs g,
        ∃ i j : ℕ, ∃ (hi : i < g.length) (hj : j < g.length),
          i < j ∧ p.1 = g.get ⟨i, hi⟩ ∧ p.2 = g.get ⟨j, hj⟩) ∧
    (∀ i j : ℕ, ∀ (hi : i < g.length) (hj : j < g.length), i < j →
        (g.get ⟨i, hi⟩, g.get ⟨j, hj⟩) ∈ orderedPairs g) ∧
    (orderedPairs g).length = g.length.choose 2 ∧
    (∀ o1 o2 : OddsRecord, ∀ opp : ArbitrageOpportunity,
        evalPair s h a o1 o2 = Except.ok (some opp) →
          opp.home_odds = o1.home_odds ∧ opp.away_odds = o2.away_odds ∧
          opp.home_bookmaker = o1.bookmaker ∧
          opp.away_bookmaker = o2.bookmaker) :=
  ⟨evalGroup_eq_candidates s h a g,
   orderedPairs_mem_index g,
   orderedPairs_complete g,
   orderedPairs_length g,
   evalPair_ok_fields s h a⟩

/-- Witness for C6 at a concrete two-record group. -/
theorem C6_asymmetric_pairing_witness :
    evalGroup "nba" "Lakers" "Celtics" [recA, recB] =
      evalCandidates "nba" "Lakers" "Celtics" (orderedPairs [recA, recB]) ∧
    (∀ p ∈ orderedPairs [recA, recB],
        ∃ i j : ℕ,
          ∃ (hi : i < [recA, recB].length) (hj : j < [recA, recB].length),
          i < j ∧ p.1 = [recA, recB].get ⟨i, hi⟩ ∧
            p.2 = [recA, recB].get ⟨j, hj⟩) ∧
    (∀ i j : ℕ,
        ∀ (hi : i < [recA, recB].length) (hj : j < [recA, recB].length),
          i < j →
          ([recA, recB].get ⟨i, hi⟩, [recA, recB].get ⟨j, hj⟩) ∈
            orderedPairs [recA, recB]) ∧
    (orderedPairs [recA, recB]).length = [recA, recB].length.choose 2 ∧
    (∀ o1 o2 : OddsRecord, ∀ opp : ArbitrageOpportunity,
        evalPair "nba" "Lakers" "Celtics" o1 o2 = Except.ok (some opp) →
          opp.home_odds = o1.home_odds ∧ opp.away_odds = o2.away_odds ∧
          opp.home_bookmaker = o1.bookmaker ∧
          opp.away_bookmaker = o2.bookmaker) :=
  C6_asymmetric_pairing "nba" "Lakers" "Celtics" [recA, recB]

/-- C8: for a pair of positive prices the evaluator emits an
opportunity with profit_percent equal to (1 divided by arb_sum, minus
1, times 100) exactly when arb_sum is strictly below 1, and emits
nothing when arb_sum is 1 or larger (no epsilon tolerance). -/
theorem C8_strict_threshold (s h a : String) (o1 o2 : OddsRecord)
    (h1 : 0 < o1.home_odds) (h2 : 0 < o2.away_odds) :
    (1 / o1.home_odds + 1 / o2.away_odds < 1 →
      evalPair s h a o1 o2 = Except.ok (some
        { sport := s, home_team := h, away_team := a,
          home_bookmaker := o1.bookmaker, away_bookmaker := o2.bookmaker,
          home_odds := o1.home_odds, away_odds := o2.away_odds,
          profit_percent :=
            (1 / (1 / o1.home_odds + 1 / o2.away_odds) - 1) * 100 })) ∧
    (1 ≤ 1 / o1.home_odds + 1 / o2.away_odds →
      evalPair s h a o1 o2 = Except.ok none) := by
  have hne : ¬(o1.home_odds = 0 ∨ o2.away_odds = 0) := by
    push_neg
    exact ⟨h1.ne', h2.ne'⟩
  constructor
  · intro hlt
    simp only [evalPair, if_neg hne, if_pos hlt]
  · intro hge
    simp only [evalPair, if_neg hne, if_neg (not_lt.mpr hge)]

/-- Witness for C8 at the spec's scenario B prices (1.50 and 1.50):
arb_sum is 4/3, at least 1, so no opportunity. -/
theorem C8_strict_threshold_witness :
    (0 : ℚ) < recD.home_odds ∧ (0 : ℚ) < recE.away_odds ∧
    1 ≤ 1 / recD.home_odds + 1 / recE.away_odds ∧
    evalPair "nba" "Lakers" "Celtics" recD recE = Except.ok none := by
  have h1 : (0 : ℚ) < recD.home_odds := by norm_num [recD]
  have h2 : (0 : ℚ) < recE.away_odds := by norm_num [recE]
  have hge : (1 : ℚ) ≤ 1 / recD.home_odds + 1 / recE.away_odds := by
    norm_num [recD, recE]
  exact ⟨h1, h2, hge,
    (C8_strict_threshold "nba" "Lakers" "Celtics" recD recE h1 h2).2 hge⟩

lemma insertRecord_keys_sub (acc : List (EventKey × List OddsRecord))
    (r : OddsRecord) (k : EventKey) (hk : k ∈ acc.map Prod.fst) :
    k ∈ (insertRecord acc r).map Prod.fst := by
  unfold insertRecord
  split
  · obtain ⟨kg, hkg, hfst⟩ := List.mem_map.mp hk
    refine List.mem_map.mpr ⟨if kg.1 = eventKey r then (kg.1, kg.2 ++ [r]) else kg, ?_, ?_⟩
    · exact List.mem_map_of_mem _ hkg
    · split
      · exact hfst
      · exact hfst
  · rw [List.map_append]
    exact List.mem_append_left _ hk

lemma insertRecord_keys_self (acc : List (EventKey × List OddsRecord))
    (r : OddsRecord) :
    eventKey r ∈ (insertRecord acc r).map Prod.fst := by
  unfold insertRecord
  split
  · rename_i hany
    obtain ⟨kg, hkg, hkey⟩ := List.any_eq_true.mp hany
    have hkey2 : kg.1 = eventKey r := of_decide_eq_true hkey
    refine List.mem_map.mpr ⟨(kg.1, kg.2 ++ [r]), ?_, hkey2⟩
    refine List.mem_map.mpr ⟨kg, hkg, ?_⟩
    rw [if_pos hkey2]
  · rw [List.map_append]
    exact List.mem_append_right _ (by simp)

lemma groupBy_foldl_spec (rs : List OddsRecord) :
    ∀ (acc : List (EventKey × List OddsRecord)) (seen : List OddsRecord),
    (∀ kg ∈ acc, kg.2 = seen.filter (fun r => decide (eventKey r = kg.1))) →
    (∀ r ∈ seen, eventKey r ∈ acc.map Prod.fst) →
    (∀ kg ∈ rs.foldl insertRecord acc,
        kg.2 = (seen ++ rs).filter (fun r => decide (eventKey r = kg.1))) ∧
    (∀ r ∈ seen ++ rs, eventKey r ∈ (rs.foldl insertRecord acc).map Prod.fst) := by
  induction rs with
  | nil =>
      intro acc seen hf hc
      constructor
      · intro kg hkg
        simpa using hf kg hkg
      · intro r hr
        rw [List.append_nil] at hr
        exact hc r hr
  | cons r rs ih =>
      intro acc seen hf hc
      have hf2 : ∀ kg ∈ insertRecord acc r,
          kg.2 = (seen ++ [r]).filter (fun x => decide (eventKey x = kg.1)) := by
        intro kg hkg
        rw [List.filter_append]
        unfold insertRecord at hkg
        split at hkg
        · rename_i hany
          obtain ⟨kg0, hkg0, hupd⟩ := List.mem_map.mp hkg
          by_cases hkey : kg0.1 = eventKey r
          · rw [if_pos hkey] at hupd
            have hfil : List.filter (fun x => decide (eventKey x = kg.1)) [r] = [r] := by
              subst hupd
              simp [← hkey]
            rw [hfil, ← hupd]
            have := hf kg0 hkg0
            subst hupd
            simpa using this
          · rw [if_neg hkey] at hupd
            subst hupd
            have hfil : List.filter (fun x => decide (eventKey x = kg0.1)) [r] = [] := by
              simp
              intro hcontra
              exact hkey hcontra.symm
            rw [hfil, List.append_nil]
            exact hf kg0 hkg0
        · rename_i hany
          rcases List.mem_append.mp hkg with hin | hnew
          · have hne : ∀ kg2 ∈ acc, ¬(kg2.1 = eventKey r) := by
              intro kg2 hkg2 hcontra
              exact hany (List.any_eq_true.mpr ⟨kg2, hkg2, decide_eq_true hcontra⟩)
            have hfil : List.filter (fun x => decide (eventKey x = kg.1)) [r] = [] := by
              simp
              intro hcontra
              exact hne kg hin hcontra.symm
            rw [hfil, List.append_nil]
            exact hf kg hin
          · have hkg2 : kg = (eventKey r, [r]) := by simpa using hnew
            subst hkg2
            have hseen : List.filter (fun x => decide (eventKey x = eventKey r)) seen = [] := by
              rw [List.filter_eq_nil_iff]
              intro x hx hcontra
              have hx2 : eventKey x = eventKey r := of_decide_eq_true hcontra
              have := hc x hx
              rw [hx2] at this
              obtain ⟨kg2, hkg2, hfst⟩ := List.mem_map.mp this
              exact hany (List.any_eq_true.mpr ⟨kg2, hkg2, decide_eq_true hfst⟩)
            simp [hseen]
      have hc2 : ∀ x ∈ seen ++ [r], eventKey x ∈ (insertRecord acc r).map Prod.fst := by
        intro x hx
        rcases List.mem_append.mp hx with hx | hx
        · exact insertRecord_keys_sub acc r (eventKey x) (hc x hx)
        · have hx2 : x = r := by simpa using hx
          rw [hx2]
          exact insertRecord_keys_self acc r
      have := ih (insertRecord acc r) (seen ++ [r]) hf2 hc2
      rw [List.append_assoc] at this
      simpa using this

/-- C7: grouping partitions by exact equality of the EventKey triple:
each group equals, in order, the sublist of input records carrying its
key (stable insertion order, no sorting, no deduplication), every
record in a group has the group's key (so records with differing keys
are never merged), and every input record lands in some group. -/
theorem C7_grouping (rs : List OddsRecord) :
    (∀ kg ∈ groupByEvent rs,
        kg.2 = rs.filter (fun r => decide (eventKey r = kg.1))) ∧
    (∀ kg ∈ groupByEvent rs, ∀ r ∈ kg.2, eventKey r = kg.1) ∧
    (∀ r ∈ rs, ∃ kg ∈ groupByEvent rs, r ∈ kg.2) := by
  have hmain := groupBy_foldl_spec rs [] [] (by simp) (by simp)
  rw [List.nil_append] at hmain
  obtain ⟨hf, hc⟩ := hmain
  refine ⟨hf, ?_, ?_⟩
  · intro kg hkg r hr
    rw [hf kg hkg] at hr
    exact of_decide_eq_true (List.mem_filter.mp hr).2
  · intro r hr
    obtain ⟨kg, hkg, hfst⟩ := List.mem_map.mp (hc r hr)
    refine ⟨kg, hkg, ?_⟩
    rw [hf kg hkg]
    refine List.mem_filter.mpr ⟨hr, ?_⟩
    rw [hfst]
    simp

/-- Witness for C7 at a concrete three-record input sharing one
event key. -/
theorem C7_grouping_witness :
    (∀ kg ∈ groupByEvent [recA, recBad, recB],
        kg.2 = [recA, recBad, recB].filter
          (fun r => decide (eventKey r = kg.1))) ∧
    (∀ kg ∈ groupByEvent [recA, recBad, recB],
        ∀ r ∈ kg.2, eventKey r = kg.1) ∧
    (∀ r ∈ [recA, recBad, recB],
        ∃ kg ∈ groupByEvent [recA, recBad, recB], r ∈ kg.2) :=
  C7_grouping [recA, recBad, recB]
